import Mathlib

/-!
Verification of the countdown firmware (`src/code/src/main.cpp`).

The firmware computes hours remaining until a fixed target instant
(2026-04-12 06:00:00 Europe/Budapest local time), renders the value on a
4-digit display alternating between an hours view and a days view, and
logs status lines over serial.

The embedding below translates the pure computations of `main.cpp`:
`computeHoursRemaining`, `showValueOnDisplay`, `updateDisplay` and
`reportIfNeeded`.  `long` values become `Int`; C's truncating `/` and `%`
on `long` become `Int.tdiv` and `Int.tmod`.  The libc calls `time`,
`mktime` and `difftime` are platform services: `time(nullptr)` becomes an
explicit `now : Int` argument, `difftime` becomes exact integer
subtraction (its `double` result is exact for these magnitudes), and
`mktime` under the POSIX TZ rule `CET-1CEST,M3.5.0/2,M10.5.0/3`
(installed by `connectWiFi`) is modelled by `mktimeBudapest` using the
standard civil-calendar conversion and the rule's daylight-saving
transitions (last Sunday of March 02:00 local to last Sunday of October
03:00 local, offsets UTC+1 / UTC+2).
-/

namespace Countdown

/-- Embeds `struct TargetDate` from `main.cpp`. -/
structure TargetDate where
  year : Int
  month : Int
  day : Int
  hour : Int
  minute : Int
  second : Int
deriving DecidableEq

/-- Embeds `static const TargetDate TARGET`, the compiled-in target
2026-04-12 06:00:00. -/
def TARGET : TargetDate := ⟨2026, 4, 12, 6, 0, 0⟩

/-- Days since 1970-01-01 of the civil date `y-m-d` (proleptic Gregorian
calendar); the standard `days_from_civil` algorithm used by time
libraries to implement `mktime`'s calendar arithmetic. -/
def daysFromCivil (y m d : Int) : Int :=
  let y2 := if m ≤ 2 then y - 1 else y
  let era := y2 / 400
  let yoe := y2 - era * 400
  let mp := if m > 2 then m - 3 else m + 9
  let doy := (153 * mp + 2) / 5 + d - 1
  let doe := yoe * 365 + yoe / 4 - yoe / 100 + doy
  era * 146097 + doe - 719468

/-- Day of month of the last Sunday of a 31-day month `y-m`
(1970-01-01 was a Thursday, so weekday with Sunday = 0 is
`(days + 4) % 7`). -/
def lastSundayOfMonth31 (y m : Int) : Int :=
  31 - (daysFromCivil y m 31 + 4) % 7

/-- Whether daylight-saving time is in effect for the local wall-clock
time `y-m-d hh:mm:ss` under the POSIX rule `M3.5.0/2,M10.5.0/3`:
DST runs from the last Sunday of March 02:00 local to the last Sunday of
October 03:00 local. -/
def budapestIsDst (t : TargetDate) : Bool :=
  let wall := daysFromCivil t.year t.month t.day * 86400
    + t.hour * 3600 + t.minute * 60 + t.second
  let dstStart := daysFromCivil t.year 3 (lastSundayOfMonth31 t.year 3) * 86400
    + 2 * 3600
  let dstEnd := daysFromCivil t.year 10 (lastSundayOfMonth31 t.year 10) * 86400
    + 3 * 3600
  decide (dstStart ≤ wall ∧ wall < dstEnd)

/-- Model of `mktime` for a local calendar time under the TZ rule
`CET-1CEST,M3.5.0/2,M10.5.0/3` (Europe/Budapest): seconds since the Unix
epoch of the local wall time, subtracting the UTC offset in effect
(UTC+2 during DST, UTC+1 otherwise). -/
def mktimeBudapest (t : TargetDate) : Int :=
  let wall := daysFromCivil t.year t.month t.day * 86400
    + t.hour * 3600 + t.minute * 60 + t.second
  wall - (if budapestIsDst t then 7200 else 3600)

/-- Embeds `targetTime`, the result of `mktime` with the fields of `TARGET`
copied into the `tm` struct (lines 72-81 of `main.cpp`). -/
def targetTime : Int := mktimeBudapest TARGET

/-- Embeds `long computeHoursRemaining()` (lines 68-85), with `time(nullptr)`
made an explicit argument `now`.  Returns `-1` when `now < 100000`
(time not yet synchronized), `0` when the target is not in the future,
else the truncating division of the remaining seconds by 3600. -/
def computeHoursRemaining (now : Int) : Int :=
  if now < 100000 then -1
  else if targetTime ≤ now then 0
  else (targetTime - now).tdiv 3600

/-- What the TM1637 display ends up showing: either the all-dashes error
pattern or a numeric value. -/
inductive DisplayOutput where
  | dashes : DisplayOutput
  | number : Int → DisplayOutput
deriving DecidableEq

/-- Embeds `void showValueOnDisplay(long value)` (lines 42-52): negative values
render as four dash segments; values above 9999 are clamped to 9999. -/
def showValueOnDisplay (value : Int) : DisplayOutput :=
  if value < 0 then .dashes
  else .number (if value > 9999 then 9999 else value)

/-- Embeds `enum DisplayMode` with values `MODE_HOURS` and `MODE_DAYS`. -/
inductive DisplayMode where
  | MODE_HOURS : DisplayMode
  | MODE_DAYS : DisplayMode
deriving DecidableEq

/-- Embeds `void updateDisplay(long hoursRemaining)` (lines 54-65), with the
global `displayMode` made an explicit argument. -/
def updateDisplay (displayMode : DisplayMode) (hoursRemaining : Int) :
    DisplayOutput :=
  if hoursRemaining < 0 then showValueOnDisplay (-1)
  else
    match displayMode with
    | .MODE_HOURS => showValueOnDisplay (hoursRemaining - 1)
    | .MODE_DAYS => showValueOnDisplay (hoursRemaining.tdiv 24)

/-- The fields printed in a `[RESULT]` status line (line 98):
`Serial.printf("... %ld (≈ %ld days %ld h)", hours-1, days, remHours)`. -/
structure LogLine where
  hoursField : Int
  daysField : Int
  remField : Int
deriving DecidableEq

/-- Observable effects of one call to `reportIfNeeded`: the optional
`[RESULT]` log line, whether the `[INFO] Waiting for time sync...` line
was printed, the display update if any, and the new value of the global
`lastReportedHours`. -/
structure ReportResult where
  log : Option LogLine
  waitingInfo : Bool
  display : Option DisplayOutput
  lastReportedHours : Int
deriving DecidableEq

/-- Embeds `void reportIfNeeded(bool force = false)` (lines 87-102), with the
globals `displayMode` and `lastReportedHours` and the current time made
explicit arguments.  The C local `hours` binds the result of the pure
`computeHoursRemaining()`; it is inlined here. -/
def reportIfNeeded (displayMode : DisplayMode) (lastReportedHours : Int)
    (now : Int) (force : Bool) : ReportResult :=
  if computeHoursRemaining now < 0 then
    { log := none
      waitingInfo := force
      display := some (updateDisplay displayMode (-1))
      lastReportedHours := lastReportedHours }
  else if force = true ∨ computeHoursRemaining now ≠ lastReportedHours then
    { log := some ⟨computeHoursRemaining now - 1,
        (computeHoursRemaining now).tdiv 24,
        (computeHoursRemaining now).tmod 24⟩
      waitingInfo := false
      display := some (updateDisplay displayMode (computeHoursRemaining now))
      lastReportedHours := computeHoursRemaining now }
  else
    { log := none
      waitingInfo := false
      display := none
      lastReportedHours := lastReportedHours }

/-- Helper: the target instant in epoch seconds
(2026-04-12 04:00:00 UTC, since DST is in effect locally). -/
lemma targetTime_eq : targetTime = 1775966400 := by decide

/-- Helper: a negative `hoursRemaining` renders as the dash pattern,
whatever the mode. -/
lemma updateDisplay_neg (mode : DisplayMode) (h : Int) (hneg : h < 0) :
    updateDisplay mode h = .dashes := by
  unfold updateDisplay showValueOnDisplay
  rw [if_pos hneg, if_pos (by norm_num)]

/-- Helper: a non-negative value shows as itself clamped above to 9999. -/
lemma showValueOnDisplay_clamp (v : Int) (hv : 0 ≤ v) :
    showValueOnDisplay v = .number (min v 9999) := by
  unfold showValueOnDisplay
  rw [if_neg (by omega)]
  by_cases hb : 9999 < v
  · rw [if_pos (by omega), min_eq_right (le_of_lt hb)]
  · rw [if_neg (by omega), min_eq_left (by omega)]

/-- Helper: with non-negative hours, hours mode delegates the value
`hoursRemaining - 1` to `showValueOnDisplay`. -/
lemma updateDisplay_hours_eq (h : Int) (hn : 0 ≤ h) :
    updateDisplay .MODE_HOURS h = showValueOnDisplay (h - 1) := by
  unfold updateDisplay
  rw [if_neg (by omega)]

/-- Helper: with non-negative hours, days mode delegates the value
`hoursRemaining.tdiv 24` to `showValueOnDisplay`. -/
lemma updateDisplay_days_eq (h : Int) (hn : 0 ≤ h) :
    updateDisplay .MODE_DAYS h = showValueOnDisplay (h.tdiv 24) := by
  unfold updateDisplay
  rw [if_neg (by omega)]

/-- Claim C1: for a synchronized `now` (at or above the sentinel
threshold 100000) strictly before the target, `computeHoursRemaining`
returns the floor of `(targetTime - now) / 3600` (on `Int`, `/` is
floor division for a positive divisor). -/
theorem computeHoursRemaining_floor (now : Int)
    (hsync : 100000 ≤ now) (hlt : now < targetTime) :
    computeHoursRemaining now = (targetTime - now) / 3600 := by
  unfold computeHoursRemaining
  rw [if_neg (by omega), if_neg (by omega)]
  exact Int.tdiv_eq_ediv (by omega) (by omega)

/-- Witness for C1: two hours before the target the result is the floor
of the second difference divided by 3600. -/
theorem computeHoursRemaining_floor_witness :
    computeHoursRemaining 1775959200 = (targetTime - 1775959200) / 3600 :=
  computeHoursRemaining_floor 1775959200 (by decide)
    (by rw [targetTime_eq]; decide)

/-- Claim C2: with a synchronized clock, `computeHoursRemaining` returns
exactly 0 whenever `now` is at or past the target, and is non-negative
in every case. -/
theorem computeHoursRemaining_past_target_zero (now : Int)
    (hsync : 100000 ≤ now) :
    (targetTime ≤ now → computeHoursRemaining now = 0) ∧
    0 ≤ computeHoursRemaining now := by
  unfold computeHoursRemaining
  rw [if_neg (by omega)]
  refine ⟨fun h => by rw [if_pos h], ?_⟩
  by_cases h : targetTime ≤ now
  · rw [if_pos h]
  · rw [if_neg h]
    exact Int.tdiv_nonneg (by omega) (by omega)

/-- Witness for C2: at the target instant itself the result is 0. -/
theorem computeHoursRemaining_past_target_zero_witness :
    (targetTime ≤ 1775966400 → computeHoursRemaining 1775966400 = 0) ∧
    0 ≤ computeHoursRemaining 1775966400 :=
  computeHoursRemaining_past_target_zero 1775966400 (by decide)

/-- Claim C3: `computeHoursRemaining` returns the `-1` sentinel exactly
when `now` is below the 100000-second threshold; at or above it the
result is never `-1`. -/
theorem computeHoursRemaining_unsynced_iff (now : Int) :
    computeHoursRemaining now = -1 ↔ now < 100000 := by
  unfold computeHoursRemaining
  by_cases h : now < 100000
  · rw [if_pos h]
    exact iff_of_true rfl h
  · rw [if_neg h]
    by_cases h2 : targetTime ≤ now
    · rw [if_pos h2]
      exact iff_of_false (by omega) h
    · rw [if_neg h2]
      have hnn : 0 ≤ (targetTime - now).tdiv 3600 :=
        Int.tdiv_nonneg (by omega) (by omega)
      exact iff_of_false (by omega) h

/-- Claim C4: in hours mode with a synchronized (non-negative) hours
value, the display shows `hours - 1` clamped above to 9999, except that
`hours = 0` yields `-1`, which renders as the dash pattern. -/
theorem updateDisplay_hours_mode (h : Int) (hn : 0 ≤ h) :
    updateDisplay .MODE_HOURS h =
      if h = 0 then DisplayOutput.dashes
      else DisplayOutput.number (min (h - 1) 9999) := by
  rw [updateDisplay_hours_eq h hn]
  by_cases h0 : h = 0
  · subst h0
    rw [if_pos rfl]
    unfold showValueOnDisplay
    rw [if_pos (by norm_num)]
  · rw [if_neg h0, showValueOnDisplay_clamp (h - 1) (by omega)]

/-- Witness for C4: 0 remaining hours renders as dashes in hours mode. -/
theorem updateDisplay_hours_mode_witness :
    updateDisplay .MODE_HOURS 0 =
      if (0 : Int) = 0 then DisplayOutput.dashes
      else DisplayOutput.number (min (0 - 1) 9999) :=
  updateDisplay_hours_mode 0 (by decide)

/-- Claim C5: in days mode with a synchronized (non-negative) hours
value `h`, the display shows `⌊h / 24⌋` clamped to `[0, 9999]`; the
clamped value is non-negative, so the output is always numeric, never
the error pattern. -/
theorem updateDisplay_days_mode (h : Int) (hn : 0 ≤ h) :
    updateDisplay .MODE_DAYS h = .number (min (h / 24) 9999) ∧
    0 ≤ min (h / 24) 9999 := by
  have hq : 0 ≤ h / 24 := Int.ediv_nonneg hn (by omega)
  refine ⟨?_, le_min hq (by omega)⟩
  rw [updateDisplay_days_eq h hn, Int.tdiv_eq_ediv hn (by omega),
    showValueOnDisplay_clamp (h / 24) hq]

/-- Witness for C5: 250000 hours is 10416 days, which clamps to 9999. -/
theorem updateDisplay_days_mode_witness :
    updateDisplay .MODE_DAYS 250000 = .number (min ((250000 : Int) / 24) 9999) ∧
    0 ≤ min ((250000 : Int) / 24) 9999 :=
  updateDisplay_days_mode 250000 (by decide)

/-- Claim C6: formatting a negative (unsynced) hours value yields the
dash pattern in both display modes — the output is independent of the
mode. -/
theorem updateDisplay_unsynced_dashes (mode : DisplayMode) (h : Int)
    (hneg : h < 0) :
    updateDisplay mode h = .dashes ∧
    updateDisplay .MODE_HOURS h = updateDisplay .MODE_DAYS h := by
  refine ⟨updateDisplay_neg mode h hneg, ?_⟩
  rw [updateDisplay_neg _ h hneg, updateDisplay_neg _ h hneg]

/-- Witness for C6: the sentinel `-1` renders as dashes in days mode. -/
theorem updateDisplay_unsynced_dashes_witness :
    updateDisplay .MODE_DAYS (-1) = .dashes ∧
    updateDisplay .MODE_HOURS (-1) = updateDisplay .MODE_DAYS (-1) :=
  updateDisplay_unsynced_dashes .MODE_DAYS (-1) (by decide)

/-- Claim C7: for synchronized instants `now1 ≤ now2` both strictly
before the target, the remaining-hours value is non-increasing as the
clock advances, and both values are non-negative. -/
theorem computeHoursRemaining_antitone (now1 now2 : Int)
    (hs1 : 100000 ≤ now1) (hs2 : 100000 ≤ now2) (hle : now1 ≤ now2)
    (hlt1 : now1 < targetTime) (hlt2 : now2 < targetTime) :
    computeHoursRemaining now2 ≤ computeHoursRemaining now1 ∧
    0 ≤ computeHoursRemaining now1 ∧ 0 ≤ computeHoursRemaining now2 := by
  unfold computeHoursRemaining
  rw [if_neg (by omega), if_neg (by omega), if_neg (by omega),
    if_neg (by omega), Int.tdiv_eq_ediv (by omega) (by omega),
    Int.tdiv_eq_ediv (by omega) (by omega)]
  refine ⟨Int.ediv_le_ediv (by omega) (by omega), ?_, ?_⟩
  · exact Int.ediv_nonneg (by omega) (by omega)
  · exact Int.ediv_nonneg (by omega) (by omega)

/-- Witness for C7: one hour before the target versus two hours before. -/
theorem computeHoursRemaining_antitone_witness :
    computeHoursRemaining 1775962800 ≤ computeHoursRemaining 1775959200 ∧
    0 ≤ computeHoursRemaining 1775959200 ∧
    0 ≤ computeHoursRemaining 1775962800 :=
  computeHoursRemaining_antitone 1775959200 1775962800 (by decide) (by decide)
    (by decide) (by rw [targetTime_eq]; decide) (by rw [targetTime_eq]; decide)

/-- Claim C8: with `now` = 2026-04-10 06:00:00 local Europe/Budapest
time (DST in effect, UTC+2, epoch second 1775793600) and the built-in
target 2026-04-12 06:00:00 local, `computeHoursRemaining` returns
exactly 48. -/
theorem computeHoursRemaining_scenario_48 :
    mktimeBudapest ⟨2026, 4, 10, 6, 0, 0⟩ = 1775793600 ∧
    budapestIsDst ⟨2026, 4, 10, 6, 0, 0⟩ = true ∧
    computeHoursRemaining (mktimeBudapest ⟨2026, 4, 10, 6, 0, 0⟩) = 48 := by
  refine ⟨by decide, by decide, by decide⟩

/-- Claim C9: whenever `reportIfNeeded` emits a `[RESULT]` log line, its
hours field is the computed hours minus one while the days and remainder
fields are the true quotient and remainder by 24, so the printed fields
satisfy `H = 24*D + R - 1` and never `H = 24*D + R`. -/
theorem reportIfNeeded_log_fields (mode : DisplayMode) (last now : Int)
    (force : Bool) (line : LogLine)
    (hlog : (reportIfNeeded mode last now force).log = some line) :
    line.hoursField = computeHoursRemaining now - 1 ∧
    line.daysField = computeHoursRemaining now / 24 ∧
    line.remField = computeHoursRemaining now % 24 ∧
    line.hoursField = 24 * line.daysField + line.remField - 1 ∧
    line.hoursField ≠ 24 * line.daysField + line.remField := by
  unfold reportIfNeeded at hlog
  by_cases hneg : computeHoursRemaining now < 0
  · rw [if_pos hneg] at hlog
    exact absurd hlog (by simp)
  · rw [if_neg hneg] at hlog
    by_cases hcond : force = true ∨ computeHoursRemaining now ≠ last
    · rw [if_pos hcond] at hlog
      have hline : line = ⟨computeHoursRemaining now - 1,
          (computeHoursRemaining now).tdiv 24,
          (computeHoursRemaining now).tmod 24⟩ :=
        (Option.some_inj.mp hlog).symm
      subst hline
      have hd : (computeHoursRemaining now).tdiv 24 =
          computeHoursRemaining now / 24 :=
        Int.tdiv_eq_ediv (by omega) (by omega)
      have hr : (computeHoursRemaining now).tmod 24 =
          computeHoursRemaining now % 24 :=
        Int.tmod_eq_emod (by omega) (by omega)
      have hid := Int.ediv_add_emod (computeHoursRemaining now) 24
      refine ⟨rfl, hd, hr, ?_, ?_⟩
      · simp only [hd, hr]
        omega
      · simp only [hd, hr]
        omega
    · rw [if_neg hcond] at hlog
      exact absurd hlog (by simp)

/-- Witness for C9: two hours before the target, a forced report prints
hours field 1, days field 0, remainder field 2 (and 1 = 24*0 + 2 - 1). -/
theorem reportIfNeeded_log_fields_witness :
    (LogLine.mk 1 0 2).hoursField = computeHoursRemaining 1775959200 - 1 ∧
    (LogLine.mk 1 0 2).daysField = computeHoursRemaining 1775959200 / 24 ∧
    (LogLine.mk 1 0 2).remField = computeHoursRemaining 1775959200 % 24 ∧
    (LogLine.mk 1 0 2).hoursField =
      24 * (LogLine.mk 1 0 2).daysField + (LogLine.mk 1 0 2).remField - 1 ∧
    (LogLine.mk 1 0 2).hoursField ≠
      24 * (LogLine.mk 1 0 2).daysField + (LogLine.mk 1 0 2).remField :=
  reportIfNeeded_log_fields .MODE_HOURS (-1) 1775959200 true ⟨1, 0, 2⟩
    (by decide)

/-- Claim C10: when the computed hours value is the `-1` sentinel
(`now < 100000`), `reportIfNeeded` leaves `lastReportedHours` unchanged,
shows the dash display and logs no result line; in every case
`lastReportedHours` is either left unchanged or assigned a non-negative
computed value, so a non-negative `lastReportedHours` never becomes
negative again. -/
theorem reportIfNeeded_lastReported (mode : DisplayMode) (last now : Int)
    (force : Bool) :
    (now < 100000 →
       (reportIfNeeded mode last now force).lastReportedHours = last ∧
       (reportIfNeeded mode last now force).display = some .dashes ∧
       (reportIfNeeded mode last now force).log = none) ∧
    ((reportIfNeeded mode last now force).lastReportedHours = last ∨
       0 ≤ (reportIfNeeded mode last now force).lastReportedHours) ∧
    (0 ≤ last → 0 ≤ (reportIfNeeded mode last now force).lastReportedHours) := by
  unfold reportIfNeeded
  by_cases hneg : computeHoursRemaining now < 0
  · rw [if_pos hneg]
    dsimp only
    refine ⟨fun _ => ⟨rfl, ?_, rfl⟩, Or.inl rfl, fun h => h⟩
    rw [updateDisplay_neg mode (-1) (by omega)]
  · rw [if_neg hneg]
    have hsync : ¬ now < 100000 := by
      intro hlt
      have : computeHoursRemaining now = -1 := by
        unfold computeHoursRemaining
        rw [if_pos hlt]
      omega
    by_cases hcond : force = true ∨ computeHoursRemaining now ≠ last
    · rw [if_pos hcond]
      dsimp only
      exact ⟨fun h => absurd h hsync, Or.inr (by omega), fun _ => by omega⟩
    · rw [if_neg hcond]
      dsimp only
      exact ⟨fun h => absurd h hsync, Or.inl rfl, fun h => h⟩

/-- Witness for C10: with an unsynchronized clock (`now = 5`) and a
previously recorded value 3, the state is preserved, the display shows
dashes, nothing is logged, and the recorded value stays non-negative. -/
theorem reportIfNeeded_lastReported_witness :
    ((reportIfNeeded .MODE_HOURS 3 5 false).lastReportedHours = 3 ∧
       (reportIfNeeded .MODE_HOURS 3 5 false).display = some .dashes ∧
       (reportIfNeeded .MODE_HOURS 3 5 false).log = none) ∧
    ((reportIfNeeded .MODE_HOURS 3 5 false).lastReportedHours = 3 ∨
       0 ≤ (reportIfNeeded .MODE_HOURS 3 5 false).lastReportedHours) ∧
    0 ≤ (reportIfNeeded .MODE_HOURS 3 5 false).lastReportedHours := by
  have h := reportIfNeeded_lastReported .MODE_HOURS 3 5 false
  exact ⟨h.1 (by decide), h.2.1, h.2.2 (by decide)⟩

end Countdown
